import Mathlib

/-!
# Verification of the cost-attribution / currency-normalization engine

Shallow embedding of the two Python scripts of FatTomatoKing/data-check:

* `20251111-cdap-ads-compare-1.9.1.22-v1.py` (the "v1" script), and
* `cdap和ads数据不一致验证脚本.py` (the "legacy" script),

covering the deduplication step, the currency conversion
(`currency_to_usd_with_details` in both scripts), the cost lookups
(`query_campaign_cost`, `query_campaign_cost_by_channel`,
`query_channel_total_cost`), the per-campaign cost calculators
(`calculate_campaign_cost_with_details`,
`calculate_campaign_cost_with_channel_details`) and the two attribution
engines (`process_cdap_data_with_cost`, `process_ads_data_with_cost`).

The external SQL stores are modelled as an environment of oracle
functions (`Env`): each `query_*` helper that reads the database is a
pure read of the oracle, with database failures surfaced as the value
the Python `except` branch of that helper returns (`None` / an explicit
`Except.error` where the caller distinguishes errors).  Python floats
are modelled as `Rat`; `round(x, 2)` as decimal round-half-to-even
(`round2`).  Values that may be `None` or non-numeric (e.g. amounts fed
to `float(...)`) are modelled by `PyVal`; `PyVal.other` stands for any
value on which Python `float()` raises.  Python-level exceptions are
modelled with `Except String`: an operation the source wraps in
`try/except` is matched on, an unguarded fallible operation propagates
its error.
-/

/-- A Python value fed to `float(...)`: `None`, a number, or anything on
which `float()` raises (`PyVal.other`). -/
inductive PyVal where
  | vNone : PyVal
  | num : Rat → PyVal
  | other : PyVal
deriving DecidableEq, Repr

/-- Python `float(v)`: succeeds exactly on numbers. -/
def pyFloat : PyVal → Except String Rat
  | .num q => .ok q
  | .vNone => .error "TypeError: float of None"
  | .other => .error "ValueError: could not convert to float"

/-- Python `round(x, 2)` modelled on exact rationals: decimal
round-half-to-even to two places. -/
def round2 (q : Rat) : Rat :=
  let x := q * 100
  let f : Int := x.floor
  let r := x - (f : Rat)
  let n : Int :=
    if r < 1/2 then f
    else if 1/2 < r then f + 1
    else if f % 2 = 0 then f else f + 1
  (n : Rat) / 100

/-- Python truthiness of an optional string: `None` and `""` are falsy
(`if not currency`, `if not pn`, `and pn`). -/
def strFalsy : Option String → Bool
  | none => true
  | some s => s = ""

/-- `not campaign_id or campaign_id.strip() == ''` on a string value. -/
def blankStr (s : String) : Bool := s = "" || s.trim = ""

/-- The same test on a possibly-missing (`None`) string. -/
def cidBlank : Option String → Bool
  | none => true
  | some s => blankStr s

/-- Row of the `project` table as `query_project_entity` returns it
(`pn, extra_rate, enable, create_time`; only `extra_rate` is ever
consumed downstream). -/
structure ProjectEntity where
  pn : String
  extra_rate : Rat
  enable : Int
  create_time : String
deriving DecidableEq, Repr

/-- Result dictionary of `currency_to_usd_with_details`
(`cost_usd, currency, rate, extra_rate`). -/
structure ConvInfo where
  cost_usd : Rat
  currency : Option String
  rate : Option Rat
  extra_rate : Option Rat
deriving DecidableEq, Repr

/-- Result dictionary of the `calculate_campaign_cost_*` functions and of
the channel-total cache entries
(`cost_usd, original_cost, currency, rate, extra_rate`). -/
structure CostInfo where
  cost_usd : Rat
  original_cost : Rat
  currency : Option String
  rate : Option Rat
  extra_rate : Option Rat
deriving DecidableEq, Repr

def zeroCostInfo : CostInfo := ⟨0, 0, none, none, none⟩

/-- The external stores, as oracles.  A `SUM(...)` aggregation query is
`Except String (Option (Option Rat))`: a store error, or no fetched row,
or a row whose sum is SQL `NULL`, or a numeric sum.  The configuration
lookups (`query_project_entity`, `get_currency_by_pn`,
`query_rate_entity`, `get_pn_by_channel`) catch their own store errors
and return `None`, so they are modelled directly as `Option`-valued
oracles. -/
structure Env where
  projectEntity : String → Option ProjectEntity
  currencyByPn : String → Option String
  rateEntity : String → String → String → Option Rat
  costSum : String → String → Except String (Option (Option Rat))
  costSumByChannel : String → String → String → Except String (Option (Option Rat))
  chanTotalSum : String → String → Except String (Option (Option Rat))
  pnByChannel : String → Option String

/-- `query_campaign_cost(dates, campaign_id)` (v1 lines 654-670): blank
or missing campaign id returns `0.0` before any query; store errors, no
row and a `NULL` sum all collapse to `0.0`. -/
def query_campaign_cost (env : Env) (dates : String) (campaign_id : Option String) : Rat :=
  match campaign_id with
  | none => 0
  | some s =>
    if blankStr s then 0
    else
      match env.costSum dates s with
      | .error _ => 0
      | .ok none => 0
      | .ok (some none) => 0
      | .ok (some (some c)) => c

/-- `query_campaign_cost_by_channel(dates, campaign_id, channel)`
(v1 lines 607-634): same degradations, with a channel filter. -/
def query_campaign_cost_by_channel (env : Env) (dates : String)
    (campaign_id : Option String) (channel : String) : Rat :=
  match campaign_id with
  | none => 0
  | some s =>
    if blankStr s then 0
    else
      match env.costSumByChannel dates s channel with
      | .error _ => 0
      | .ok none => 0
      | .ok (some none) => 0
      | .ok (some (some c)) => c

/-- `query_channel_total_cost(dates, channel)` (v1 lines 636-652). -/
def query_channel_total_cost (env : Env) (dates : String) (channel : String) : Rat :=
  if blankStr channel then 0
  else
    match env.chanTotalSum dates channel with
    | .error _ => 0
    | .ok none => 0
    | .ok (some none) => 0
    | .ok (some (some c)) => c

/-- `currency_to_usd_with_details(dates, source_money, pn)` of the v1
script (lines 727-789).  The two `try/except` blocks of the source are
the two `match`es on fallible operations; every other step is total, so
any error value would have escaped the function — the `Except` result
records exactly the Python exception behaviour. -/
def currency_to_usd_with_details (env : Env) (dates : String)
    (source_money : PyVal) (pn : Option String) : Except String ConvInfo :=
  let result : ConvInfo := ⟨0, none, none, none⟩
  match source_money, pn with
  | .vNone, _ => .ok result
  | _, none => .ok result
  | m, some pnv =>
    -- step 1: project config, extra_rate defaults to 1.0
    let extra_rate : Rat :=
      match env.projectEntity pnv with
      | some p => p.extra_rate
      | none => 1
    let result := { result with extra_rate := some extra_rate }
    -- step 2: amount * extra_rate, guarded by try/except
    match pyFloat m with
    | .error _ => .ok { result with cost_usd := 0 }
    | .ok mf =>
      let extra_money := mf * extra_rate
      -- step 3: currency config; `if not currency: return result`
      match env.currencyByPn pnv with
      | none => .ok result
      | some c =>
        if c = "" then .ok result
        else
          let result := { result with currency := some c }
          -- step 4: rate lookup with the INR default
          match env.rateEntity dates "USD" c with
          | none =>
            if c.toUpper = "INR" then
              let rate : Rat := 157/2
              let result := { result with rate := some rate }
              -- step 5 (rate = 78.5 is non-zero; division cannot fail)
              .ok { result with cost_usd := round2 (extra_money / rate) }
            else .ok result
          | some rate =>
            let result := { result with rate := some rate }
            -- step 5: `if rate and rate != 0`
            if rate ≠ 0 then
              .ok { result with cost_usd := round2 (extra_money / rate) }
            else .ok result

/-- `get_currency_by_pn` of the legacy script (lines 450-456): a
hard-coded placeholder — its own comment says the real implementation
queries `project_currency_config` (which is what the `Env.currencyByPn`
oracle stands for). -/
def legacy_get_currency_by_pn (pn : String) : String :=
  if pn = "IN" then "INR" else "USD"

/-- `get_pn_by_campaign_id` of the legacy script (lines 331-336): a
hard-coded placeholder returning `"IN"`. -/
def legacy_get_pn_by_campaign_id (_campaign_id : String) : String := "IN"

/-- `currency_to_usd_with_details` of the legacy script (lines 392-443).
Differences from v1: the initial result is
`{cost_usd: 0.0, currency: 'USD', rate: 1.0, extra_rate: 1.0}`;
`source_money * extra_rate` is NOT wrapped in `try` (a non-numeric
amount raises, modelled as a propagated `.error`); an unresolved
currency, an unresolved non-INR rate and a zero rate all assign
`result['cost_usd'] = source_money` (the amount passes through
unconverted).  The currency lookup `self.get_currency_by_pn` is modelled
by the `Env.currencyByPn` oracle (the script's own version is the
placeholder `legacy_get_currency_by_pn` above, usable as
`fun pn => some (legacy_get_currency_by_pn pn)`). -/
def legacy_currency_to_usd_with_details (env : Env) (dates : String)
    (source_money : PyVal) (pn : Option String) : Except String ConvInfo :=
  let result : ConvInfo := ⟨0, some "USD", some 1, some 1⟩
  match source_money, pn with
  | .vNone, _ => .ok result
  | _, none => .ok result
  | .other, some _ => .error "TypeError: unsupported operand for *"
  | .num q, some pnv =>
    let extra_rate : Rat :=
      match env.projectEntity pnv with
      | some p => p.extra_rate
      | none => 1
    let result := { result with extra_rate := some extra_rate }
    let extra_money := q * extra_rate
    match env.currencyByPn pnv with
    | none => .ok { result with cost_usd := q }
    | some c =>
      if c = "" then .ok { result with cost_usd := q }
      else
        let result := { result with currency := some c }
        match env.rateEntity dates "USD" c with
        | none =>
          if c.toUpper = "INR" then
            let rate : Rat := 157/2
            let result := { result with rate := some rate }
            .ok { result with cost_usd := round2 (extra_money / rate) }
          else
            -- rate stays at its initial 1.0; the amount passes through
            .ok { result with cost_usd := q }
        | some rate =>
          let result := { result with rate := some rate }
          if rate ≠ 0 then
            .ok { result with cost_usd := round2 (extra_money / rate) }
          else
            .ok { result with cost_usd := q }

/-- `calculate_campaign_cost_with_details(dates, campaign_id, pn)` of
the v1 script (lines 521-559).  A missing `pn` is only logged — the
conversion is still attempted with `pn = None` (and then returns all
zeros/None).  The whole body is wrapped in `try/except` returning the
result accumulated so far, which at the conversion call equals the
zero-cost record with `original_cost` set. -/
def calculate_campaign_cost_with_details (env : Env) (dates : String)
    (campaign_id : Option String) (pn : Option String) : CostInfo :=
  let cost_amount := query_campaign_cost env dates campaign_id
  let result := { zeroCostInfo with original_cost := cost_amount }
  if cost_amount = 0 then result
  else
    match currency_to_usd_with_details env dates (.num cost_amount) pn with
    | .ok c =>
      { cost_usd := c.cost_usd, original_cost := cost_amount,
        currency := c.currency, rate := c.rate, extra_rate := c.extra_rate }
    | .error _ => result

/-- `calculate_campaign_cost_with_channel_details(dates, campaign_id,
channel, pn)` of the v1 script (lines 561-600).  Unlike the
channel-less variant, `if not pn: return result` aborts before the
conversion. -/
def calculate_campaign_cost_with_channel_details (env : Env) (dates : String)
    (campaign_id : Option String) (channel : String) (pn : Option String) : CostInfo :=
  let cost_amount := query_campaign_cost_by_channel env dates campaign_id channel
  let result := { zeroCostInfo with original_cost := cost_amount }
  if cost_amount = 0 then result
  else if strFalsy pn then result
  else
    match currency_to_usd_with_details env dates (.num cost_amount) pn with
    | .ok c =>
      { cost_usd := c.cost_usd, original_cost := cost_amount,
        currency := c.currency, rate := c.rate, extra_rate := c.extra_rate }
    | .error _ => result

/-! ## Grouping (shared by both attribution engines)

Both engines build `group_map`, a Python dict (insertion-ordered) from
the key string `f"{dates}_{channel}_{campaign_id}"` to the list of rows
with that key.  An entry is modelled as
`(key, first_row, later_rows)` so that `group_rows = first :: later`. -/

/-- Assoc-list lookup by key string (Python `dict` access). -/
def alookup {β : Type} (l : List (String × β)) (k : String) : Option β :=
  match l with
  | [] => none
  | (k', v) :: t => if k' = k then some v else alookup t k

/-- Append one row to its group, creating the group at the end if the
key is new (Python dict insertion order). -/
def addRowToGroups {α : Type} (key : α → String)
    (gs : List (String × α × List α)) (r : α) : List (String × α × List α) :=
  match gs with
  | [] => [(key r, r, [])]
  | (k, f, rest) :: t =>
    if k = key r then (k, f, rest ++ [r]) :: t
    else (k, f, rest) :: addRowToGroups key t r

/-- `group_map` built over the input rows in order. -/
def groupMap {α : Type} (key : α → String) (rows : List α) : List (String × α × List α) :=
  rows.foldl (addRowToGroups key) []

/-- The rows stored under key `k` (`first :: later`, or `[]` when the
key is absent). -/
def groupRows {α : Type} (gs : List (String × α × List α)) (k : String) : List α :=
  match alookup gs k with
  | some (f, rest) => f :: rest
  | none => []

/-- `f"{dates}_{channel}_{campaign_id}"`. -/
def keyOfParts (dates channel campaign_id : String) : String :=
  dates ++ "_" ++ channel ++ "_" ++ campaign_id

/-! ## The CDAP attribution engine (`process_cdap_data_with_cost`) -/

/-- A row of the CDAP detail query (v1 lines 75-101):
`table_name, dates, bdates, channel, source, campaign_id, active,
history_active_offset_days, day_recharge, threshold_value`.
`day_recharge` is `PyVal` because the source guards it against `None`
and non-numeric values. -/
structure CdapRow where
  table_name : String
  dates : String
  bdates : String
  channel : String
  source : String
  campaign_id : String
  active : Int
  offset_days : Int
  day_recharge : PyVal
  threshold : Int
deriving DecidableEq, Repr

def cdapKey (r : CdapRow) : String := keyOfParts r.dates r.channel r.campaign_id

/-- An output row of `process_cdap_data_with_cost` (v1 lines 249-266):
the first seven input fields, the channel-total pair, the attributed
cost pair, and the recharge pair. -/
structure CdapOut where
  table_name : String
  dates : String
  bdates : String
  channel : String
  source : String
  campaign_id : String
  active : Int
  chanCostUsd : Rat
  chanOrigCost : Rat
  costUsd : Rat
  origCost : Rat
  rechargeUsd : Rat
  rechargeOrig : Rat
deriving DecidableEq, Repr

/-- `day_recharge_raw = row[8] if row[8] is not None else 0.0` followed
by `try: float(...) except: 0.0` (v1 lines 210, 217-221). -/
def drFloat (v : PyVal) : Rat :=
  let raw := match v with | .vNone => PyVal.num 0 | x => x
  match pyFloat raw with
  | .ok q => q
  | .error _ => 0

/-- The channel-total cache entry (v1 lines 154-173): total cost for
`(dates, channel)`, converted when positive and a `pn` is available.
(The conversion call is not inside any handler in the source; it
provably never errors — see `currency_to_usd_ok` — so the `.error`
branch is unreachable.) -/
def chanTotalInfo (env : Env) (dates channel : String) (pn : Option String) : CostInfo :=
  let channel_total_cost := query_channel_total_cost env dates channel
  if 0 < channel_total_cost ∧ strFalsy pn = false then
    match currency_to_usd_with_details env dates (.num channel_total_cost) pn with
    | .ok c => ⟨c.cost_usd, channel_total_cost, c.currency, c.rate, c.extra_rate⟩
    | .error _ => zeroCostInfo
  else zeroCostInfo

/-- One iteration of the CDAP group loop (v1 lines 142-178): populate
the channel-total cache on first sight of a channel, and compute the
group cost via `calculate_campaign_cost_with_channel_details`.  The
`channel_pn_cache` is pure memoization of `get_pn_by_channel`
(a function of the channel only), so it reads as `env.pnByChannel`. -/
def cdapGroupStep (env : Env)
    (acc : List (String × CostInfo) × List (String × CostInfo))
    (g : String × CdapRow × List CdapRow) :
    List (String × CostInfo) × List (String × CostInfo) :=
  let k := g.1
  let base := g.2.1
  let pn := env.pnByChannel base.channel
  let cache :=
    if (alookup acc.2 base.channel).isSome then acc.2
    else acc.2 ++ [(base.channel, chanTotalInfo env base.dates base.channel pn)]
  (acc.1 ++
    [(k, calculate_campaign_cost_with_channel_details env base.dates
        (some base.campaign_id) base.channel pn)],
   cache)

/-- The CDAP group loop over `group_map`, yielding `group_costs` and the
`channel_total_cost_cache`. -/
def cdapGroupLoop (env : Env) (gs : List (String × CdapRow × List CdapRow)) :
    List (String × CostInfo) × List (String × CostInfo) :=
  gs.foldl (cdapGroupStep env) ([], [])

/-- The per-row cost dictionary (v1 lines 188-207): the group's full
cost for the row equal to `group_rows[0]` (Python `==` is value
equality on tuples), otherwise zero cost with the group's currency
metadata retained. -/
def cdapRowCostInfo (gm : List (String × CdapRow × List CdapRow))
    (costs : List (String × CostInfo)) (row : CdapRow) : CostInfo :=
  let k := cdapKey row
  -- group_map[key]; the key of a processed row is always present
  let first : CdapRow :=
    match alookup gm k with
    | some (f, _) => f
    | none => row
  let gc := (alookup costs k).getD zeroCostInfo
  if row = first then gc
  else ⟨0, 0, gc.currency, gc.rate, gc.extra_rate⟩

/-- The per-row `day_recharge` conversion (v1 lines 209-247): a
function of the row's own fields and the environment only. -/
def cdapRecharge (env : Env) (row : CdapRow) : ConvInfo :=
  let day_recharge := drFloat row.day_recharge
  let pn := env.pnByChannel row.channel
  if 0 < day_recharge ∧ strFalsy pn = false then
    match currency_to_usd_with_details env row.dates (.num day_recharge) pn with
    | .ok c => c
    | .error _ => ⟨0, none, none, none⟩
  else
    match pn with
    | some p =>
      if p = "" then ⟨0, none, none, none⟩
      else
        let currency := env.currencyByPn p
        let extra_rate : Rat :=
          match env.projectEntity p with
          | some pe => pe.extra_rate
          | none => 1
        let rate : Option Rat :=
          match currency with
          | some c => if c = "" then none else env.rateEntity row.dates "USD" c
          | none => none
        ⟨0, currency, rate, some extra_rate⟩
    | none => ⟨0, none, none, none⟩

/-- Rebuild one output row (v1 lines 249-266). -/
def cdapRowOut (env : Env) (gm : List (String × CdapRow × List CdapRow))
    (costs : List (String × CostInfo)) (cache : List (String × CostInfo))
    (row : CdapRow) : CdapOut :=
  let cost_info := cdapRowCostInfo gm costs row
  let recharge := cdapRecharge env row
  -- channel_total_cost_cache[channel]; the group loop has populated
  -- every processed row's channel, so the default is never consulted
  let ct := (alookup cache row.channel).getD zeroCostInfo
  ⟨row.table_name, row.dates, row.bdates, row.channel, row.source,
   row.campaign_id, row.active,
   ct.cost_usd, ct.original_cost,
   cost_info.cost_usd, cost_info.original_cost,
   recharge.cost_usd, drFloat row.day_recharge⟩

/-- `process_cdap_data_with_cost` (v1 lines 115-269). -/
def process_cdap_data_with_cost (env : Env) (results : List CdapRow) : List CdapOut :=
  let gm := groupMap cdapKey results
  let cc := cdapGroupLoop env gm
  results.map (cdapRowOut env gm cc.1 cc.2)

/-! ## The ADS attribution engine (`process_ads_data_with_cost`, v1) -/

/-- A deduplicated row of the ADS backend query (v1 lines 275-332, after
the id column is dropped): `table_name, dates, bdates, channel, source,
campaign_id, active, history_active_offset_days, day_recharge, pn,
threshold_value`.  `pn` may be SQL `NULL`. -/
structure AdsRow where
  table_name : String
  dates : String
  bdates : String
  channel : String
  source : String
  campaign_id : String
  active : Int
  offset_days : Int
  day_recharge : PyVal
  pn : Option String
  threshold : Int
deriving DecidableEq, Repr

def adsKey (r : AdsRow) : String := keyOfParts r.dates r.channel r.campaign_id

/-- An output row of `process_ads_data_with_cost` (v1 lines 496-516):
the first seven input fields, the channel-less cost pair, the
channel-qualified cost pair, and the recharge pair. -/
structure AdsOut where
  table_name : String
  dates : String
  bdates : String
  channel : String
  source : String
  campaign_id : String
  active : Int
  woCostUsd : Rat
  woOrigCost : Rat
  wCostUsd : Rat
  wOrigCost : Rat
  rechargeUsd : Rat
  rechargeOrig : Rat
deriving DecidableEq, Repr

/-- One iteration of the ADS group loop (v1 lines 380-417): the
channel-total cache (computed but unused by the output rows) and the two
group costs, with `pn` taken from the group's first row. -/
def adsGroupStep (env : Env)
    (acc : List (String × CostInfo) × List (String × CostInfo) × List (String × CostInfo))
    (g : String × AdsRow × List AdsRow) :
    List (String × CostInfo) × List (String × CostInfo) × List (String × CostInfo) :=
  let k := g.1
  let base := g.2.1
  let pn := base.pn
  let cache :=
    if (alookup acc.2.2 base.channel).isSome then acc.2.2
    else acc.2.2 ++ [(base.channel, chanTotalInfo env base.dates base.channel pn)]
  (acc.1 ++
    [(k, calculate_campaign_cost_with_details env base.dates (some base.campaign_id) pn)],
   acc.2.1 ++
    [(k, calculate_campaign_cost_with_channel_details env base.dates
        (some base.campaign_id) base.channel pn)],
   cache)

/-- The ADS group loop: channel-less costs, channel-qualified costs and
the channel-total cache. -/
def adsGroupLoop (env : Env) (gs : List (String × AdsRow × List AdsRow)) :
    List (String × CostInfo) × List (String × CostInfo) × List (String × CostInfo) :=
  gs.foldl (adsGroupStep env) ([], [], [])

/-- The per-row cost dictionary for one cost table (v1 lines 427-458),
same first-row allocation as the CDAP engine. -/
def adsRowCostInfo (gm : List (String × AdsRow × List AdsRow))
    (costs : List (String × CostInfo)) (row : AdsRow) : CostInfo :=
  let k := adsKey row
  let first : AdsRow :=
    match alookup gm k with
    | some (f, _) => f
    | none => row
  let gc := (alookup costs k).getD zeroCostInfo
  if row = first then gc
  else ⟨0, 0, gc.currency, gc.rate, gc.extra_rate⟩

/-- The per-row `day_recharge` conversion of the ADS engine (v1 lines
460-494): as in the CDAP engine, but with the row's own `pn` column. -/
def adsRecharge (env : Env) (row : AdsRow) : ConvInfo :=
  let day_recharge := drFloat row.day_recharge
  let pn := row.pn
  if 0 < day_recharge ∧ strFalsy pn = false then
    match currency_to_usd_with_details env row.dates (.num day_recharge) pn with
    | .ok c => c
    | .error _ => ⟨0, none, none, none⟩
  else
    match pn with
    | some p =>
      if p = "" then ⟨0, none, none, none⟩
      else
        let currency := env.currencyByPn p
        let extra_rate : Rat :=
          match env.projectEntity p with
          | some pe => pe.extra_rate
          | none => 1
        let rate : Option Rat :=
          match currency with
          | some c => if c = "" then none else env.rateEntity row.dates "USD" c
          | none => none
        ⟨0, currency, rate, some extra_rate⟩
    | none => ⟨0, none, none, none⟩

/-- Rebuild one ADS output row (v1 lines 496-516). -/
def adsRowOut (env : Env) (gm : List (String × AdsRow × List AdsRow))
    (costsWo costsW : List (String × CostInfo)) (row : AdsRow) : AdsOut :=
  let wo := adsRowCostInfo gm costsWo row
  let w := adsRowCostInfo gm costsW row
  let recharge := adsRecharge env row
  ⟨row.table_name, row.dates, row.bdates, row.channel, row.source,
   row.campaign_id, row.active,
   wo.cost_usd, wo.original_cost,
   w.cost_usd, w.original_cost,
   recharge.cost_usd, drFloat row.day_recharge⟩

/-- `process_ads_data_with_cost` of the v1 script (lines 353-519). -/
def process_ads_data_with_cost (env : Env) (results : List AdsRow) : List AdsOut :=
  let gm := groupMap adsKey results
  let cc := adsGroupLoop env gm
  results.map (adsRowOut env gm cc.1 cc.2.1)

/-! ## Deduplication (`query_ads_backend_detail_data`, both scripts)

The dedup loop works on raw result tuples (modelled as `List α` over an
arbitrary value domain with decidable equality): keep the first row for
each value of `row[1]` (the id column) and emit `(row[0],) + row[2:]`
(the row with the id column projected away). -/

/-- The id-keyed keep-first phase, without the projection:
`existed_ids` is the `seen` accumulator. -/
def dedupById {α : Type} [DecidableEq α] (seen : List (Option α)) :
    List (List α) → List (List α)
  | [] => []
  | r :: rs =>
    if r[1]? ∈ seen then dedupById seen rs
    else r :: dedupById (r[1]? :: seen) rs

/-- `(row[0],) + row[2:]`. -/
def dropIdField {α : Type} (r : List α) : List α := r.take 1 ++ r.drop 2

/-- The full deduplication step as the source performs it (v1 lines
320-332, legacy lines 193-205): keep first occurrence per `row[1]`,
projecting the id column away as each kept row is emitted. -/
def dedupStep {α : Type} [DecidableEq α] (seen : List (Option α)) :
    List (List α) → List (List α)
  | [] => []
  | r :: rs =>
    if r[1]? ∈ seen then dedupStep seen rs
    else dropIdField r :: dedupStep (r[1]? :: seen) rs

/-- The deduplication as called: empty `existed_ids`. -/
def ads_dedup {α : Type} [DecidableEq α] (rows : List (List α)) : List (List α) :=
  dedupStep [] rows

/-- The `group_costs` table of the CDAP engine: the list of
`(key, cost)` pairs in group order — one
`calculate_campaign_cost_with_channel_details` call per entry. -/
def cdapGroupCosts (env : Env) (rows : List CdapRow) : List (String × CostInfo) :=
  (cdapGroupLoop env (groupMap cdapKey rows)).1

/-- The group cost allocated to key `k` by the CDAP engine. -/
def cdapGroupCostOf (env : Env) (rows : List CdapRow) (k : String) : CostInfo :=
  (alookup (cdapGroupCosts env rows) k).getD zeroCostInfo

/-- The `group_costs_without_channel` table of the ADS engine. -/
def adsGroupCostsWo (env : Env) (rows : List AdsRow) : List (String × CostInfo) :=
  (adsGroupLoop env (groupMap adsKey rows)).1

/-- The `group_costs_with_channel` table of the ADS engine. -/
def adsGroupCostsW (env : Env) (rows : List AdsRow) : List (String × CostInfo) :=
  (adsGroupLoop env (groupMap adsKey rows)).2.1

/-- The channel-less group cost allocated to key `k` by the ADS engine. -/
def adsGroupCostWoOf (env : Env) (rows : List AdsRow) (k : String) : CostInfo :=
  (alookup (adsGroupCostsWo env rows) k).getD zeroCostInfo

/-- The channel-qualified group cost allocated to key `k` by the ADS
engine. -/
def adsGroupCostWOf (env : Env) (rows : List AdsRow) (k : String) : CostInfo :=
  (alookup (adsGroupCostsW env rows) k).getD zeroCostInfo

/-! ## Concrete test fixtures (used by witnesses and counterexamples) -/

/-- An environment where everything resolves: project `"P"` has
`extra_rate = 1`, currency `"EUR"`, rate `80`; campaign `"c1"` has
ledger sum `100` (with and without channel filter); channel totals sum
to `200`; channel `"ch"` maps to project `"P"`. -/
def envA : Env :=
  { projectEntity := fun p => if p = "P" then some ⟨"P", 1, 1, ""⟩ else none
    currencyByPn := fun p => if p = "P" then some "EUR" else none
    rateEntity := fun _ b s => if b = "USD" ∧ s = "EUR" then some 80 else none
    costSum := fun _ c => if c = "c1" then .ok (some (some 100)) else .ok (some none)
    costSumByChannel := fun _ c _ => if c = "c1" then .ok (some (some 100)) else .ok (some none)
    chanTotalSum := fun _ _ => .ok (some (some 200))
    pnByChannel := fun ch => if ch = "ch" then some "P" else none }

/-- As `envA` but project `"P"` has `extra_rate = 1.1`. -/
def envB : Env :=
  { envA with projectEntity := fun p => if p = "P" then some ⟨"P", 11/10, 1, ""⟩ else none }

/-- An environment whose ledger store fails on every query and whose
configuration lookups resolve nothing. -/
def envErr : Env :=
  { projectEntity := fun _ => none
    currencyByPn := fun _ => none
    rateEntity := fun _ _ _ => none
    costSum := fun _ _ => .error "store down"
    costSumByChannel := fun _ _ _ => .error "store down"
    chanTotalSum := fun _ _ => .error "store down"
    pnByChannel := fun _ => none }

/-- As `envA` but no currency configuration resolves. -/
def envNoCur : Env := { envA with currencyByPn := fun _ => none }

/-- The legacy script's own hard-coded currency lookup as the oracle,
with no rate record matching anything. -/
def envStubNoRate : Env :=
  { envA with
    currencyByPn := fun p => some (legacy_get_currency_by_pn p)
    rateEntity := fun _ _ _ => none }

/-- A CDAP detail row in group `"d_ch_c1"` with `day_recharge = 1000`. -/
def rowA : CdapRow := ⟨"t", "d", "b", "ch", "s", "c1", 5, 9, .num 1000, 3⟩

/-- As `rowA` but with `day_recharge = 1000.1`. -/
def rowB : CdapRow := ⟨"t", "d", "b", "ch", "s", "c1", 5, 9, .num (10001/10), 3⟩

/-! ## Helper lemmas: the currency conversions, branch by branch -/

theorem round2_zero : round2 0 = 0 := by with_unfolding_all decide

/-- v1 conversion at `source_money = None`. -/
theorem conv_vNone (env : Env) (d : String) (pn : Option String) :
    currency_to_usd_with_details env d .vNone pn = .ok ⟨0, none, none, none⟩ := by
  cases pn <;> rfl

/-- v1 conversion at `pn = None`. -/
theorem conv_pn_none (env : Env) (d : String) (m : PyVal) :
    currency_to_usd_with_details env d m none = .ok ⟨0, none, none, none⟩ := by
  cases m <;> rfl

/-- v1 conversion at a non-numeric amount: the `try/except` around
`float(...)` yields zero cost with `extra_rate` already recorded. -/
theorem conv_other (env : Env) (d : String) (pnv : String) :
    currency_to_usd_with_details env d .other (some pnv) =
      .ok ⟨0, none, none,
        some (match env.projectEntity pnv with | some p => p.extra_rate | none => 1)⟩ := by
  simp only [currency_to_usd_with_details, pyFloat]

/-- Full characterization of the v1 conversion on a numeric amount and a
present `pn`, by the resolution outcome of currency and rate. -/
theorem conv_eq (env : Env) (d : String) (q : Rat) (pnv : String) :
    currency_to_usd_with_details env d (.num q) (some pnv) = .ok (
      let er : Rat := match env.projectEntity pnv with | some p => p.extra_rate | none => 1
      match env.currencyByPn pnv with
      | none => ⟨0, none, none, some er⟩
      | some c =>
        if c = "" then ⟨0, none, none, some er⟩
        else
          match env.rateEntity d "USD" c with
          | none =>
            if c.toUpper = "INR" then
              ⟨round2 (q * er / (157/2)), some c, some (157/2), some er⟩
            else ⟨0, some c, none, some er⟩
          | some r =>
            if r ≠ 0 then ⟨round2 (q * er / r), some c, some r, some er⟩
            else ⟨0, some c, some r, some er⟩) := by
  cases hc : env.currencyByPn pnv with
  | none => simp [currency_to_usd_with_details, pyFloat, hc]
  | some c =>
    by_cases hce : c = ""
    · simp [currency_to_usd_with_details, pyFloat, hc, hce]
    · cases hr : env.rateEntity d "USD" c with
      | none =>
        by_cases hinr : c.toUpper = "INR" <;>
          simp [currency_to_usd_with_details, pyFloat, hc, hce, hr, hinr]
      | some r =>
        by_cases hr0 : r = 0 <;>
          simp [currency_to_usd_with_details, pyFloat, hc, hce, hr, hr0]

/-- Full characterization of the legacy conversion on a numeric amount
and a present `pn`. -/
theorem legacy_conv_eq (env : Env) (d : String) (q : Rat) (pnv : String) :
    legacy_currency_to_usd_with_details env d (.num q) (some pnv) = .ok (
      let er : Rat := match env.projectEntity pnv with | some p => p.extra_rate | none => 1
      match env.currencyByPn pnv with
      | none => ⟨q, some "USD", some 1, some er⟩
      | some c =>
        if c = "" then ⟨q, some "USD", some 1, some er⟩
        else
          match env.rateEntity d "USD" c with
          | none =>
            if c.toUpper = "INR" then
              ⟨round2 (q * er / (157/2)), some c, some (157/2), some er⟩
            else ⟨q, some c, some 1, some er⟩
          | some r =>
            if r ≠ 0 then ⟨round2 (q * er / r), some c, some r, some er⟩
            else ⟨q, some c, some r, some er⟩) := by
  cases hc : env.currencyByPn pnv with
  | none => simp [legacy_currency_to_usd_with_details, hc]
  | some c =>
    by_cases hce : c = ""
    · simp [legacy_currency_to_usd_with_details, hc, hce]
    · cases hr : env.rateEntity d "USD" c with
      | none =>
        by_cases hinr : c.toUpper = "INR" <;>
          simp [legacy_currency_to_usd_with_details, hc, hce, hr, hinr]
      | some r =>
        by_cases hr0 : r = 0 <;>
          simp [legacy_currency_to_usd_with_details, hc, hce, hr, hr0]

/-! ## Claim C4 -/

/-- C4: the v1 currency conversion never raises — for every input
(including `amount = None`, `amount = 0`, a non-numeric amount, a
missing `pn`, and arbitrary store behaviour) it returns a well-formed
`.ok` record — and the degenerate amounts all yield
`cost_usd = 0.0`. -/
theorem currency_to_usd_never_raises_and_zero_safe (env : Env) (d : String)
    (m : PyVal) (pn : Option String) :
    ∃ c : ConvInfo, currency_to_usd_with_details env d m pn = .ok c ∧
      ((m = .vNone ∨ m = .num 0 ∨ m = .other ∨ pn = none) → c.cost_usd = 0) := by
  cases m with
  | vNone => exact ⟨_, conv_vNone env d pn, fun _ => rfl⟩
  | other =>
    cases pn with
    | none => exact ⟨_, conv_pn_none env d .other, fun _ => rfl⟩
    | some pnv => exact ⟨_, conv_other env d pnv, fun _ => rfl⟩
  | num q =>
    cases pn with
    | none => exact ⟨_, conv_pn_none env d (.num q), fun _ => rfl⟩
    | some pnv =>
      refine ⟨_, conv_eq env d q pnv, ?_⟩
      rintro (h | h | h | h)
      · exact absurd h (by simp)
      · injection h with hq
        subst hq
        cases hc : env.currencyByPn pnv with
        | none => simp
        | some c =>
          by_cases hce : c = ""
          · simp [hce]
          · cases hr : env.rateEntity d "USD" c with
            | none =>
              by_cases hinr : c.toUpper = "INR" <;>
                simp [hce, hr, hinr, round2_zero]
            | some r =>
              by_cases hr0 : r = 0 <;> simp [hce, hr, hr0, round2_zero]
      · exact absurd h (by simp)
      · exact absurd h (by simp)

/-! ## Claim C9 -/

/-- C9: whenever the v1 conversion reports a non-zero `cost_usd`, the
record's `currency`, `rate` and `extra_rate` are all populated and the
rate is non-zero. -/
theorem nonzero_cost_usd_has_full_metadata (env : Env) (d : String)
    (m : PyVal) (pn : Option String) (c : ConvInfo)
    (h : currency_to_usd_with_details env d m pn = .ok c)
    (hc : c.cost_usd ≠ 0) :
    c.currency ≠ none ∧ (∃ r, c.rate = some r ∧ r ≠ 0) ∧ c.extra_rate ≠ none := by
  cases m with
  | vNone =>
    rw [conv_vNone] at h
    injection h with h'
    subst h'
    simp at hc
  | other =>
    cases pn with
    | none =>
      rw [conv_pn_none] at h
      injection h with h'
      subst h'
      simp at hc
    | some pnv =>
      rw [conv_other] at h
      injection h with h'
      subst h'
      simp at hc
  | num q =>
    cases pn with
    | none =>
      rw [conv_pn_none] at h
      injection h with h'
      subst h'
      simp at hc
    | some pnv =>
      rw [conv_eq] at h
      injection h with h'
      subst h'
      revert hc
      cases hcur : env.currencyByPn pnv with
      | none => intro hc; simp at hc
      | some cu =>
        by_cases hce : cu = ""
        · simp only [hce, if_pos rfl]
          intro hc
          simp at hc
        · simp only [if_neg hce]
          cases hr : env.rateEntity d "USD" cu with
          | none =>
            by_cases hinr : cu.toUpper = "INR"
            · simp only [if_pos hinr]
              intro _
              exact ⟨by simp, ⟨157/2, rfl, by norm_num⟩, by simp⟩
            · simp only [if_neg hinr]
              intro hc
              simp at hc
          | some r =>
            by_cases hr0 : r = 0
            · simp only [hr0, ne_eq, not_true_eq_false, if_neg, if_false]
              intro hc
              simp at hc
            · simp only [ne_eq, hr0, not_false_eq_true, if_true]
              intro _
              exact ⟨by simp, ⟨r, rfl, hr0⟩, by simp⟩

/-- C9 witness: a concrete fully-resolved conversion with non-zero cost
(amount 1000 at rate 80 gives 12.5) has complete metadata. -/
theorem nonzero_cost_usd_metadata_witness :
    ∃ c : ConvInfo, currency_to_usd_with_details envA "d" (.num 1000) (some "P") = .ok c ∧
      c.currency ≠ none ∧ (∃ r, c.rate = some r ∧ r ≠ 0) ∧ c.extra_rate ≠ none :=
  ⟨⟨Rat.divInt 25 2, some "EUR", some 80, some 1⟩, by with_unfolding_all rfl,
    nonzero_cost_usd_has_full_metadata envA "d" (.num 1000) (some "P")
      ⟨Rat.divInt 25 2, some "EUR", some 80, some 1⟩
      (by with_unfolding_all rfl) (by with_unfolding_all decide)⟩

/-! ## Claim C2 -/

/-- C2 counterexample: in the legacy script, with the currency
configuration unresolved (`currencyByPn` yields nothing), the conversion
passes the input amount 100 straight through as `cost_usd` (with the
initial `currency = 'USD'` and `rate = 1.0` untouched) — the claimed
`cost_usd = 0.0` / `currency = null` outcome is false for that
script. -/
theorem legacy_unresolved_currency_passthrough_cex :
    legacy_currency_to_usd_with_details envNoCur "d" (.num 100) (some "P") =
      .ok ⟨100, some "USD", some 1, some 1⟩ ∧
    envNoCur.currencyByPn "P" = none ∧ (100 : Rat) ≠ 0 :=
  ⟨by with_unfolding_all rfl, rfl, by norm_num⟩

/-- C2 (amended): when the currency configuration for `pn` cannot be
resolved, the v1 conversion returns `cost_usd = 0.0` with
`currency = null` (never passing the amount through), while the legacy
conversion instead passes the amount through unconverted with its
initial `currency = 'USD'` and `rate = 1.0` (the divergence the spec
records as an open question). -/
theorem currency_unresolved_zero_vs_passthrough (env : Env) (d : String)
    (m : PyVal) (q : Rat) (pnv : String)
    (hcur : env.currencyByPn pnv = none) :
    (∃ c, currency_to_usd_with_details env d m (some pnv) = .ok c ∧
       c.cost_usd = 0 ∧ c.currency = none) ∧
    (∃ c, legacy_currency_to_usd_with_details env d (.num q) (some pnv) = .ok c ∧
       c.cost_usd = q ∧ c.currency = some "USD" ∧ c.rate = some 1) := by
  constructor
  · cases m with
    | vNone => exact ⟨_, conv_vNone env d (some pnv), rfl, rfl⟩
    | other => exact ⟨_, conv_other env d pnv, rfl, rfl⟩
    | num q' =>
      refine ⟨_, conv_eq env d q' pnv, ?_, ?_⟩ <;> simp [hcur]
  · refine ⟨_, legacy_conv_eq env d q pnv, ?_, ?_, ?_⟩ <;> simp [hcur]

/-- C2 witness: the amended statement at a concrete environment with no
currency configuration, amount 100, project `"P"`. -/
theorem currency_unresolved_policy_witness :
    (∃ c, currency_to_usd_with_details envNoCur "d" (.num 100) (some "P") = .ok c ∧
       c.cost_usd = 0 ∧ c.currency = none) ∧
    (∃ c, legacy_currency_to_usd_with_details envNoCur "d" (.num 100) (some "P") = .ok c ∧
       c.cost_usd = 100 ∧ c.currency = some "USD" ∧ c.rate = some 1) :=
  currency_unresolved_zero_vs_passthrough envNoCur "d" (.num 100) 100 "P" rfl

/-! ## Claim C5 -/

/-- C5 counterexample: in the legacy script, with the currency resolved
to `"USD"` (its own hard-coded lookup) and no matching rate record, the
conversion does NOT return zero cost with `rate = null`: it passes the
amount 100 through as `cost_usd` and leaves `rate` at its initial
`1.0`. -/
theorem legacy_rate_unresolved_passthrough_cex :
    legacy_currency_to_usd_with_details envStubNoRate "d" (.num 100) (some "P") =
      .ok ⟨100, some "USD", some 1, some 1⟩ ∧
    envStubNoRate.currencyByPn "P" = some "USD" ∧
    envStubNoRate.rateEntity "d" "USD" "USD" = none ∧ (100 : Rat) ≠ 0 :=
  ⟨by with_unfolding_all rfl, rfl, rfl, by norm_num⟩

/-- C5 (amended): with no matching rate record, both conversions fall
back to the hard-coded 78.5 when the resolved currency upper-cases to
`"INR"`; for any other currency the v1 conversion returns zero cost with
the currency populated and `rate = null`, while the legacy conversion
passes the amount through with `rate` left at its initial `1.0`. -/
theorem rate_unresolved_inr_default_vs_passthrough (env : Env) (d : String)
    (q : Rat) (pnv c : String)
    (hcur : env.currencyByPn pnv = some c) (hne : c ≠ "")
    (hr : env.rateEntity d "USD" c = none) :
    (c.toUpper = "INR" →
       currency_to_usd_with_details env d (.num q) (some pnv) =
         .ok ⟨round2 (q * ((env.projectEntity pnv).elim 1 ProjectEntity.extra_rate) / (157/2)),
           some c, some (157/2),
           some ((env.projectEntity pnv).elim 1 ProjectEntity.extra_rate)⟩ ∧
       legacy_currency_to_usd_with_details env d (.num q) (some pnv) =
         .ok ⟨round2 (q * ((env.projectEntity pnv).elim 1 ProjectEntity.extra_rate) / (157/2)),
           some c, some (157/2),
           some ((env.projectEntity pnv).elim 1 ProjectEntity.extra_rate)⟩) ∧
    (c.toUpper ≠ "INR" →
       currency_to_usd_with_details env d (.num q) (some pnv) =
         .ok ⟨0, some c, none,
           some ((env.projectEntity pnv).elim 1 ProjectEntity.extra_rate)⟩ ∧
       legacy_currency_to_usd_with_details env d (.num q) (some pnv) =
         .ok ⟨q, some c, some 1,
           some ((env.projectEntity pnv).elim 1 ProjectEntity.extra_rate)⟩) := by
  rw [conv_eq, legacy_conv_eq]
  cases hpe : env.projectEntity pnv with
  | none =>
    constructor <;> intro hinr <;>
      simp [hcur, hne, hr, hinr, hpe]
  | some pe =>
    constructor <;> intro hinr <;>
      simp [hcur, hne, hr, hinr, hpe]

/-- C5 witness: the amended statement at a concrete environment using
the legacy script's own hard-coded currency lookup (project `"P"` maps
to `"USD"`, not INR) and an empty rate table. -/
theorem rate_unresolved_policy_witness :
    currency_to_usd_with_details envStubNoRate "d" (.num 100) (some "P") =
      .ok ⟨0, some "USD", none,
        some ((envStubNoRate.projectEntity "P").elim 1 ProjectEntity.extra_rate)⟩ ∧
    legacy_currency_to_usd_with_details envStubNoRate "d" (.num 100) (some "P") =
      .ok ⟨100, some "USD", some 1,
        some ((envStubNoRate.projectEntity "P").elim 1 ProjectEntity.extra_rate)⟩ :=
  (rate_unresolved_inr_default_vs_passthrough envStubNoRate "d" 100 "P" "USD"
    rfl (by decide) rfl).2 (by with_unfolding_all decide)

/-! ## Claim C6 -/

/-- C6: when project, currency and a non-zero rate all resolve, the v1
conversion computes `cost_usd = round(amount * extra_rate / rate, 2)`
and reports the resolved metadata. -/
theorem resolved_conversion_rounding (env : Env) (d : String) (q : Rat)
    (pnv c : String) (pe : ProjectEntity) (r : Rat)
    (hp : env.projectEntity pnv = some pe)
    (hcur : env.currencyByPn pnv = some c) (hne : c ≠ "")
    (hr : env.rateEntity d "USD" c = some r) (hr0 : r ≠ 0) :
    currency_to_usd_with_details env d (.num q) (some pnv) =
      .ok ⟨round2 (q * pe.extra_rate / r), some c, some r, some pe.extra_rate⟩ := by
  rw [conv_eq]
  simp [hp, hcur, hne, hr, hr0]

/-- C6 witness: `amount = 1000`, `extra_rate = 1.1`, `rate = 80.0`
yields exactly `round(1000 * 1.1 / 80.0, 2) = 13.75`. -/
theorem resolved_conversion_rounding_witness :
    currency_to_usd_with_details envB "d" (.num 1000) (some "P") =
      .ok ⟨round2 (1000 * (11/10 : Rat) / 80), some "EUR", some 80, some (11/10)⟩ ∧
    round2 (1000 * (11/10 : Rat) / 80) = 13.75 :=
  ⟨resolved_conversion_rounding envB "d" 1000 "P" "EUR" ⟨"P", 11/10, 1, ""⟩ 80
      (by with_unfolding_all rfl) (by with_unfolding_all rfl) (by decide)
      (by with_unfolding_all rfl) (by norm_num),
   by with_unfolding_all decide⟩

/-! ## Claim C10 -/

/-- C10: in the v1 script, when the ledger sum is non-zero but `pn` is
unresolved (`None`), both cost calculators return a record with
`cost_usd = 0.0` while `original_cost` carries the non-zero ledger sum —
the two fields disagree about whether spend exists. -/
theorem missing_pn_nonzero_ledger_divergence (env : Env) (d : String)
    (cid : Option String) (ch : String)
    (h1 : query_campaign_cost env d cid ≠ 0)
    (h2 : query_campaign_cost_by_channel env d cid ch ≠ 0) :
    calculate_campaign_cost_with_details env d cid none =
      ⟨0, query_campaign_cost env d cid, none, none, none⟩ ∧
    calculate_campaign_cost_with_channel_details env d cid ch none =
      ⟨0, query_campaign_cost_by_channel env d cid ch, none, none, none⟩ := by
  constructor
  · unfold calculate_campaign_cost_with_details
    rw [if_neg h1, conv_pn_none]
  · unfold calculate_campaign_cost_with_channel_details
    rw [if_neg h2]
    rfl

/-- C10 witness: campaign `"c1"` has ledger sum 100 in `envA`; with
`pn = None` both calculators return `cost_usd = 0` against
`original_cost = 100`. -/
theorem missing_pn_divergence_witness :
    (calculate_campaign_cost_with_details envA "d" (some "c1") none =
       ⟨0, query_campaign_cost envA "d" (some "c1"), none, none, none⟩ ∧
     calculate_campaign_cost_with_channel_details envA "d" (some "c1") "ch" none =
       ⟨0, query_campaign_cost_by_channel envA "d" (some "c1") "ch", none, none, none⟩) ∧
    query_campaign_cost envA "d" (some "c1") = 100 :=
  ⟨missing_pn_nonzero_ledger_divergence envA "d" (some "c1") "ch"
      (by with_unfolding_all decide) (by with_unfolding_all decide),
   by with_unfolding_all rfl⟩

/-! ## Claim C7 -/

/-- C7: both cost lookups return `0.0` for a missing/blank campaign id —
for EVERY environment, in particular for environments whose backing
store errors on every query, so the result cannot depend on the store —
and both collapse a store error, an absent row and a `NULL` sum to
`0.0` instead of propagating anything. -/
theorem cost_lookup_guard_and_degradation (env : Env) (d : String)
    (cid : Option String) (s ch e : String) :
    (cidBlank cid = true →
       query_campaign_cost env d cid = 0 ∧
       query_campaign_cost_by_channel env d cid ch = 0) ∧
    (env.costSum d s = .error e → query_campaign_cost env d (some s) = 0) ∧
    (env.costSum d s = .ok none → query_campaign_cost env d (some s) = 0) ∧
    (env.costSum d s = .ok (some none) → query_campaign_cost env d (some s) = 0) ∧
    (env.costSumByChannel d s ch = .error e →
       query_campaign_cost_by_channel env d (some s) ch = 0) ∧
    (env.costSumByChannel d s ch = .ok none →
       query_campaign_cost_by_channel env d (some s) ch = 0) ∧
    (env.costSumByChannel d s ch = .ok (some none) →
       query_campaign_cost_by_channel env d (some s) ch = 0) := by
  refine ⟨?_, ?_, ?_, ?_, ?_, ?_, ?_⟩
  · intro h
    cases cid with
    | none => exact ⟨rfl, rfl⟩
    | some s' =>
      have hb : blankStr s' = true := h
      constructor <;> simp [query_campaign_cost, query_campaign_cost_by_channel, hb]
  all_goals intro h
  all_goals simp only [query_campaign_cost, query_campaign_cost_by_channel]
  all_goals split
  all_goals simp [h]

/-- C7 witness: the guards at a concrete erroring store — a missing and
a whitespace-only campaign id return 0 even though every store query
fails, and a store error itself degrades to 0. -/
theorem cost_lookup_guard_witness :
    (query_campaign_cost envErr "d" none = 0 ∧
     query_campaign_cost_by_channel envErr "d" none "ch" = 0) ∧
    (query_campaign_cost envErr "d" (some "c") = 0) :=
  ⟨(cost_lookup_guard_and_degradation envErr "d" none "c" "ch" "store down").1 rfl,
   (cost_lookup_guard_and_degradation envErr "d" none "c" "ch" "store down").2.1 rfl⟩

/-! ## Grouping lemmas -/

/-- Adding a row extends exactly its own key's group, at the end. -/
theorem groupRows_addRowToGroups {α : Type} (key : α → String)
    (gs : List (String × α × List α)) (r : α) (k : String) :
    groupRows (addRowToGroups key gs r) k =
      groupRows gs k ++ (if key r = k then [r] else []) := by
  induction gs with
  | nil =>
    by_cases h : key r = k <;> simp [addRowToGroups, groupRows, alookup, h]
  | cons g t ih =>
    obtain ⟨k', f, rest⟩ := g
    simp only [addRowToGroups]
    by_cases h1 : k' = key r
    · rw [if_pos h1]
      by_cases h2 : k' = k
      · have hk : key r = k := h1.symm.trans h2
        simp [groupRows, alookup, h2, hk]
      · have hk : ¬ (key r = k) := fun hh => h2 (h1.trans hh)
        simp [groupRows, alookup, h2, hk]
    · rw [if_neg h1]
      by_cases h2 : k' = k
      · have hk : ¬ (key r = k) := fun hh => h1 (h2.trans hh.symm)
        simp [groupRows, alookup, h2, hk]
      · have e1 : groupRows ((k', f, rest) :: addRowToGroups key t r) k =
            groupRows (addRowToGroups key t r) k := by
          simp [groupRows, alookup, h2]
        have e2 : groupRows ((k', f, rest) :: t) k = groupRows t k := by
          simp [groupRows, alookup, h2]
        rw [e1, e2, ih]

/-- Folding rows into groups appends, per key, exactly the rows with
that key, in order. -/
theorem groupRows_foldl {α : Type} (key : α → String) (rows : List α)
    (gs : List (String × α × List α)) (k : String) :
    groupRows (rows.foldl (addRowToGroups key) gs) k =
      groupRows gs k ++ rows.filter (fun r => key r = k) := by
  induction rows generalizing gs with
  | nil => simp
  | cons r rs ih =>
    rw [List.foldl_cons, ih, groupRows_addRowToGroups]
    rw [List.append_assoc]
    congr 1
    by_cases h : key r = k <;> simp [List.filter_cons, h]

/-- The group of key `k` in `group_map` is exactly the sublist of input
rows with that key. -/
theorem groupRows_groupMap {α : Type} (key : α → String) (rows : List α) (k : String) :
    groupRows (groupMap key rows) k = rows.filter (fun r => key r = k) := by
  have h := groupRows_foldl key rows [] k
  simpa [groupMap, groupRows, alookup] using h

/-- A key is absent from an assoc list iff `alookup` misses. -/
theorem alookup_eq_none_iff {β : Type} (l : List (String × β)) (k : String) :
    alookup l k = none ↔ k ∉ l.map Prod.fst := by
  induction l with
  | nil => simp [alookup]
  | cons g t ih =>
    obtain ⟨k', v⟩ := g
    by_cases h : k' = k
    · subst h
      simp [alookup]
    · have h' : ¬ (k = k') := fun hh => h hh.symm
      simp [alookup, h, h', ih]

/-- The keys after adding a row: unchanged when the row's key already
has a group, otherwise extended by it. -/
theorem keys_addRowToGroups {α : Type} (key : α → String)
    (gs : List (String × α × List α)) (r : α) :
    (addRowToGroups key gs r).map Prod.fst =
      if key r ∈ gs.map Prod.fst then gs.map Prod.fst
      else gs.map Prod.fst ++ [key r] := by
  induction gs with
  | nil => simp [addRowToGroups]
  | cons g t ih =>
    obtain ⟨k', f, rest⟩ := g
    by_cases h : k' = key r
    · simp [addRowToGroups, h]
    · have h' : ¬ (key r = k') := fun hh => h hh.symm
      by_cases hm : key r ∈ t.map Prod.fst
      · simp [addRowToGroups, h, ih, h', hm]
      · simp [addRowToGroups, h, ih, h', hm]

/-- Grouping never duplicates a key. -/
theorem keys_nodup_addRowToGroups {α : Type} (key : α → String)
    (gs : List (String × α × List α)) (r : α)
    (h : (gs.map Prod.fst).Nodup) :
    ((addRowToGroups key gs r).map Prod.fst).Nodup := by
  rw [keys_addRowToGroups]
  split
  · exact h
  · next hnot => simp [List.nodup_append, h, hnot]

/-- The keys of `group_map` are pairwise distinct: the group loop visits
each key string exactly once. -/
theorem keys_nodup_groupMap {α : Type} (key : α → String) (rows : List α) :
    ((groupMap key rows).map Prod.fst).Nodup := by
  have main : ∀ (rs : List α) (gs : List (String × α × List α)),
      (gs.map Prod.fst).Nodup →
      (((rs.foldl (addRowToGroups key) gs)).map Prod.fst).Nodup := by
    intro rs
    induction rs with
    | nil => intro gs h; simpa using h
    | cons r rs ih =>
      intro gs h
      exact ih _ (keys_nodup_addRowToGroups key gs r h)
  exact main rows [] (by simp)

/-- `find?` is the head of `filter`. -/
theorem find?_eq_head_filter {α : Type} (p : α → Bool) (rows : List α) :
    rows.find? p = (rows.filter p).head? := by
  induction rows with
  | nil => simp
  | cons r rs ih =>
    by_cases h : p r = true
    · rw [List.find?_cons_of_pos _ h, List.filter_cons_of_pos h]
      simp
    · have hf : p r = false := by simpa using h
      rw [List.find?_cons_of_neg _ h, List.filter_cons_of_neg (by simpa using h)]
      exact ih

/-- `alookup` over a per-entry image keeps keys and maps values. -/
theorem alookup_map {β γ : Type} (F : β → γ) (l : List (String × β)) (k : String) :
    alookup (l.map (fun g => (g.1, F g.2))) k = (alookup l k).map F := by
  induction l with
  | nil => simp [alookup]
  | cons g t ih =>
    by_cases h : g.1 = k <;> simp [alookup, h, ih]

/-! ## Loop-extraction lemmas: the group loops append one entry per group -/

theorem cdapGroupLoop_fst_aux (env : Env) (gs : List (String × CdapRow × List CdapRow)) :
    ∀ (a b : List (String × CostInfo)),
      (gs.foldl (cdapGroupStep env) (a, b)).1 =
        a ++ gs.map (fun g => (g.1,
          calculate_campaign_cost_with_channel_details env g.2.1.dates
            (some g.2.1.campaign_id) g.2.1.channel (env.pnByChannel g.2.1.channel))) := by
  induction gs with
  | nil => intro a b; simp
  | cons g t ih =>
    intro a b
    rw [List.foldl_cons]
    simp only [cdapGroupStep]
    rw [ih]
    simp

theorem cdapGroupCosts_eq (env : Env) (rows : List CdapRow) :
    cdapGroupCosts env rows =
      (groupMap cdapKey rows).map (fun g => (g.1,
        calculate_campaign_cost_with_channel_details env g.2.1.dates
          (some g.2.1.campaign_id) g.2.1.channel (env.pnByChannel g.2.1.channel))) := by
  have h := cdapGroupLoop_fst_aux env (groupMap cdapKey rows) [] []
  simpa [cdapGroupCosts, cdapGroupLoop] using h

theorem adsGroupLoop_aux (env : Env) (gs : List (String × AdsRow × List AdsRow)) :
    ∀ (a b c : List (String × CostInfo)),
      (gs.foldl (adsGroupStep env) (a, b, c)).1 =
        a ++ gs.map (fun g => (g.1,
          calculate_campaign_cost_with_details env g.2.1.dates
            (some g.2.1.campaign_id) g.2.1.pn)) ∧
      (gs.foldl (adsGroupStep env) (a, b, c)).2.1 =
        b ++ gs.map (fun g => (g.1,
          calculate_campaign_cost_with_channel_details env g.2.1.dates
            (some g.2.1.campaign_id) g.2.1.channel g.2.1.pn)) := by
  induction gs with
  | nil => intro a b c; simp
  | cons g t ih =>
    intro a b c
    rw [List.foldl_cons]
    simp only [adsGroupStep]
    constructor
    · rw [(ih _ _ _).1]
      simp
    · rw [(ih _ _ _).2]
      simp

theorem adsGroupCostsWo_eq (env : Env) (rows : List AdsRow) :
    adsGroupCostsWo env rows =
      (groupMap adsKey rows).map (fun g => (g.1,
        calculate_campaign_cost_with_details env g.2.1.dates
          (some g.2.1.campaign_id) g.2.1.pn)) := by
  have h := (adsGroupLoop_aux env (groupMap adsKey rows) [] [] []).1
  simpa [adsGroupCostsWo, adsGroupLoop] using h

theorem adsGroupCostsW_eq (env : Env) (rows : List AdsRow) :
    adsGroupCostsW env rows =
      (groupMap adsKey rows).map (fun g => (g.1,
        calculate_campaign_cost_with_channel_details env g.2.1.dates
          (some g.2.1.campaign_id) g.2.1.channel g.2.1.pn)) := by
  have h := (adsGroupLoop_aux env (groupMap adsKey rows) [] [] []).2
  simpa [adsGroupCostsW, adsGroupLoop] using h

/-! ## Per-row characterization of the cost allocation -/

/-- Every processed row's key has a group whose stored first row is the
first input row with that key. -/
theorem alookup_groupMap_of_mem {α : Type} (key : α → String) (rows : List α)
    (r : α) (hr : r ∈ rows) :
    ∃ f rest, alookup (groupMap key rows) (key r) = some (f, rest) ∧
      f :: rest = rows.filter (fun x => key x = key r) ∧
      rows.find? (fun x => key x = key r) = some f := by
  have hg := groupRows_groupMap key rows (key r)
  have hrf : r ∈ rows.filter (fun x => key x = key r) := by
    simp [List.mem_filter, hr]
  cases hl : alookup (groupMap key rows) (key r) with
  | none =>
    rw [groupRows, hl] at hg
    rw [← hg] at hrf
    simp at hrf
  | some p =>
    obtain ⟨f, rest⟩ := p
    rw [groupRows, hl] at hg
    refine ⟨f, rest, rfl, hg, ?_⟩
    rw [find?_eq_head_filter, ← hg]
    rfl

/-- The per-row cost record of the CDAP engine: the full group cost on
the first row of the group (by value equality), the zeroed record with
the group's metadata on every other row. -/
theorem cdapRowCostInfo_eq (env : Env) (rows : List CdapRow) (r : CdapRow)
    (hr : r ∈ rows) :
    cdapRowCostInfo (groupMap cdapKey rows) (cdapGroupCosts env rows) r =
      if rows.find? (fun x => cdapKey x = cdapKey r) = some r
      then cdapGroupCostOf env rows (cdapKey r)
      else ⟨0, 0, (cdapGroupCostOf env rows (cdapKey r)).currency,
          (cdapGroupCostOf env rows (cdapKey r)).rate,
          (cdapGroupCostOf env rows (cdapKey r)).extra_rate⟩ := by
  obtain ⟨f, rest, hl, _, hfind⟩ := alookup_groupMap_of_mem cdapKey rows r hr
  simp only [cdapRowCostInfo]
  rw [hl]
  by_cases hrf : r = f
  · subst hrf
    rw [if_pos rfl, if_pos hfind]
    rfl
  · have hne : ¬ (rows.find? (fun x => cdapKey x = cdapKey r) = some r) := by
      rw [hfind]
      intro hh
      injection hh with hh'
      exact hrf hh'.symm
    rw [if_neg hrf, if_neg hne]
    rfl

/-- The same characterization for the ADS engine's per-row record. -/
theorem adsRowCostInfo_eq (rows : List AdsRow)
    (costs : List (String × CostInfo)) (r : AdsRow) (hr : r ∈ rows) :
    adsRowCostInfo (groupMap adsKey rows) costs r =
      if rows.find? (fun x => adsKey x = adsKey r) = some r
      then (alookup costs (adsKey r)).getD zeroCostInfo
      else ⟨0, 0, ((alookup costs (adsKey r)).getD zeroCostInfo).currency,
          ((alookup costs (adsKey r)).getD zeroCostInfo).rate,
          ((alookup costs (adsKey r)).getD zeroCostInfo).extra_rate⟩ := by
  obtain ⟨f, rest, hl, _, hfind⟩ := alookup_groupMap_of_mem adsKey rows r hr
  simp only [adsRowCostInfo]
  rw [hl]
  by_cases hrf : r = f
  · subst hrf
    rw [if_pos rfl, if_pos hfind]
  · have hne : ¬ (rows.find? (fun x => adsKey x = adsKey r) = some r) := by
      rw [hfind]
      intro hh
      injection hh with hh'
      exact hrf hh'.symm
    rw [if_neg hrf, if_neg hne]

/-- The output row at index `i` is the rebuilt input row at `i`. -/
theorem cdap_out_eq (env : Env) (rows : List CdapRow) (i : Nat) (r : CdapRow)
    (o : CdapOut) (hr : rows[i]? = some r)
    (ho : (process_cdap_data_with_cost env rows)[i]? = some o) :
    o = cdapRowOut env (groupMap cdapKey rows) (cdapGroupCosts env rows)
        (cdapGroupLoop env (groupMap cdapKey rows)).2 r := by
  simp only [process_cdap_data_with_cost] at ho
  rw [List.getElem?_map, hr] at ho
  simp only [Option.map_some', Option.some.injEq] at ho
  exact ho.symm

theorem ads_out_eq (env : Env) (rows : List AdsRow) (i : Nat) (r : AdsRow)
    (o : AdsOut) (hr : rows[i]? = some r)
    (ho : (process_ads_data_with_cost env rows)[i]? = some o) :
    o = adsRowOut env (groupMap adsKey rows) (adsGroupCostsWo env rows)
        (adsGroupCostsW env rows) r := by
  simp only [process_ads_data_with_cost] at ho
  rw [List.getElem?_map, hr] at ho
  simp only [Option.map_some', Option.some.injEq] at ho
  exact ho.symm

/-! ## Claim C1 -/

set_option maxRecDepth 8000 in
/-- C1 counterexample: on an input holding the same detail row twice
(possible, as the CDAP query has no unique id and the ADS dedup key is
dropped before grouping), both rows of the single group receive the
group's full non-zero cost, because `row == group_rows[0]` is Python
value equality, not identity — so "exactly one row of each group carries
the non-zero cost" is false. -/
theorem duplicate_row_double_allocation_cex :
    (process_cdap_data_with_cost envA [rowA, rowA]).map (fun o => (o.costUsd, o.origCost)) =
      [(Rat.divInt 5 4, 100), (Rat.divInt 5 4, 100)] ∧
    Rat.divInt 5 4 ≠ 0 := by
  with_unfolding_all decide

/-- C1 (amended): in both engines the group cost is computed exactly
once per distinct group-key string (`f"{dates}_{channel}_{campaign_id}"`),
output length and order match the input, and each output row carries the
full group cost when the row is value-equal to the first input row of
its group and zeroed cost fields (with the group's currency/rate/
extra-rate metadata retained in the per-row cost record) otherwise.
"Exactly one row per group" therefore holds exactly when no later row of
a group is value-equal to the group's first row. -/
theorem group_cost_allocated_once_per_key (env : Env) (rows : List CdapRow)
    (arows : List AdsRow) :
    ((cdapGroupCosts env rows).map Prod.fst).Nodup ∧
    ((adsGroupCostsWo env arows).map Prod.fst).Nodup ∧
    ((adsGroupCostsW env arows).map Prod.fst).Nodup ∧
    (process_cdap_data_with_cost env rows).length = rows.length ∧
    (process_ads_data_with_cost env arows).length = arows.length ∧
    (∀ (i : Nat) (r : CdapRow) (o : CdapOut), rows[i]? = some r →
       (process_cdap_data_with_cost env rows)[i]? = some o →
       (rows.find? (fun x => cdapKey x = cdapKey r) = some r →
          o.costUsd = (cdapGroupCostOf env rows (cdapKey r)).cost_usd ∧
          o.origCost = (cdapGroupCostOf env rows (cdapKey r)).original_cost) ∧
       (rows.find? (fun x => cdapKey x = cdapKey r) ≠ some r →
          o.costUsd = 0 ∧ o.origCost = 0 ∧
          cdapRowCostInfo (groupMap cdapKey rows) (cdapGroupCosts env rows) r =
            ⟨0, 0, (cdapGroupCostOf env rows (cdapKey r)).currency,
              (cdapGroupCostOf env rows (cdapKey r)).rate,
              (cdapGroupCostOf env rows (cdapKey r)).extra_rate⟩)) ∧
    (∀ (i : Nat) (r : AdsRow) (o : AdsOut), arows[i]? = some r →
       (process_ads_data_with_cost env arows)[i]? = some o →
       (arows.find? (fun x => adsKey x = adsKey r) = some r →
          o.woCostUsd = (adsGroupCostWoOf env arows (adsKey r)).cost_usd ∧
          o.woOrigCost = (adsGroupCostWoOf env arows (adsKey r)).original_cost ∧
          o.wCostUsd = (adsGroupCostWOf env arows (adsKey r)).cost_usd ∧
          o.wOrigCost = (adsGroupCostWOf env arows (adsKey r)).original_cost) ∧
       (arows.find? (fun x => adsKey x = adsKey r) ≠ some r →
          o.woCostUsd = 0 ∧ o.woOrigCost = 0 ∧ o.wCostUsd = 0 ∧ o.wOrigCost = 0)) := by
  have hkeys : (cdapGroupCosts env rows).map Prod.fst =
      (groupMap cdapKey rows).map Prod.fst := by
    rw [cdapGroupCosts_eq, List.map_map]
    rfl
  have hkeysWo : (adsGroupCostsWo env arows).map Prod.fst =
      (groupMap adsKey arows).map Prod.fst := by
    rw [adsGroupCostsWo_eq, List.map_map]
    rfl
  have hkeysW : (adsGroupCostsW env arows).map Prod.fst =
      (groupMap adsKey arows).map Prod.fst := by
    rw [adsGroupCostsW_eq, List.map_map]
    rfl
  refine ⟨hkeys ▸ keys_nodup_groupMap cdapKey rows,
    hkeysWo ▸ keys_nodup_groupMap adsKey arows,
    hkeysW ▸ keys_nodup_groupMap adsKey arows, ?_, ?_, ?_, ?_⟩
  · simp [process_cdap_data_with_cost]
  · simp [process_ads_data_with_cost]
  · intro i r o hr ho
    have hmem : r ∈ rows := List.getElem?_mem hr
    have hoe := cdap_out_eq env rows i r o hr ho
    subst hoe
    have hfold : (cdapGroupLoop env (groupMap cdapKey rows)).1 =
        cdapGroupCosts env rows := rfl
    have hci := cdapRowCostInfo_eq env rows r hmem
    constructor
    · intro hfirst
      simp only [cdapRowOut]
      rw [hci, if_pos hfirst]
      exact ⟨rfl, rfl⟩
    · intro hfirst
      simp only [cdapRowOut]
      rw [hci, if_neg hfirst]
      exact ⟨rfl, rfl, rfl⟩
  · intro i r o hr ho
    have hmem : r ∈ arows := List.getElem?_mem hr
    have hoe := ads_out_eq env arows i r o hr ho
    subst hoe
    have hciWo := adsRowCostInfo_eq arows (adsGroupCostsWo env arows) r hmem
    have hciW := adsRowCostInfo_eq arows (adsGroupCostsW env arows) r hmem
    constructor
    · intro hfirst
      simp only [adsRowOut]
      rw [hciWo, hciW, if_pos hfirst, if_pos hfirst]
      exact ⟨rfl, rfl, rfl, rfl⟩
    · intro hfirst
      simp only [adsRowOut]
      rw [hciWo, hciW, if_neg hfirst, if_neg hfirst]
      exact ⟨rfl, rfl, rfl, rfl⟩

/-! ## Claim C8 -/

set_option maxRecDepth 8000 in
/-- C8 counterexample: two rows of the same group with different raw
`day_recharge` values (1000 and 1000.1) both convert to 12.5 USD at rate
80 — after `round(., 2)` the converted amounts do NOT differ, so "their
converted recharge amounts differ accordingly" is false as stated. -/
theorem recharge_rounding_collapse_cex :
    (process_cdap_data_with_cost envA [rowA, rowB]).map (fun o => o.rechargeUsd) =
      [Rat.divInt 25 2, Rat.divInt 25 2] ∧
    rowA.day_recharge ≠ rowB.day_recharge ∧ cdapKey rowA = cdapKey rowB := by
  with_unfolding_all decide

/-- C8 (amended): in both engines the per-row recharge conversion is a
function of the row's own fields (its `day_recharge`, dates and
channel/`pn`) and the environment only — never of the row's position in
its group, so it is never zeroed for non-first rows; two rows with the
same relevant fields convert identically wherever they sit.  (Distinct
raw values may still convert to equal amounts, by rounding or by a
failed currency/rate resolution — the counterexample.) -/
theorem day_recharge_is_per_row (env : Env) (rows : List CdapRow)
    (arows : List AdsRow) :
    (∀ (i : Nat) (r : CdapRow) (o : CdapOut), rows[i]? = some r →
       (process_cdap_data_with_cost env rows)[i]? = some o →
       o.rechargeUsd = (cdapRecharge env r).cost_usd ∧
       o.rechargeOrig = drFloat r.day_recharge) ∧
    (∀ (i : Nat) (r : AdsRow) (o : AdsOut), arows[i]? = some r →
       (process_ads_data_with_cost env arows)[i]? = some o →
       o.rechargeUsd = (adsRecharge env r).cost_usd ∧
       o.rechargeOrig = drFloat r.day_recharge) ∧
    (∀ (r r' : CdapRow), r.dates = r'.dates → r.channel = r'.channel →
       r.day_recharge = r'.day_recharge →
       cdapRecharge env r = cdapRecharge env r') := by
  refine ⟨?_, ?_, ?_⟩
  · intro i r o hr ho
    have hoe := cdap_out_eq env rows i r o hr ho
    subst hoe
    exact ⟨rfl, rfl⟩
  · intro i r o hr ho
    have hoe := ads_out_eq env arows i r o hr ho
    subst hoe
    exact ⟨rfl, rfl⟩
  · intro r r' h1 h2 h3
    simp only [cdapRecharge, drFloat, h1, h2, h3]

/-! ## Claim C3 -/

/-- C3 counterexample: two rows that differ only in their id column
survive deduplication; re-running the deduplication step on its own
(id-stripped) output keys on what is now the `dates` column and both
removes a row and strips another column — the step is not idempotent. -/
theorem dedup_projection_not_idempotent_cex :
    ads_dedup (ads_dedup ([[0, 1, 7], [0, 2, 7]] : List (List Int))) ≠
      ads_dedup ([[0, 1, 7], [0, 2, 7]] : List (List Int)) ∧
    ads_dedup ([[0, 1, 7], [0, 2, 7]] : List (List Int)) = [[0, 7], [0, 7]] ∧
    ads_dedup ([[0, 7], [0, 7]] : List (List Int)) = [[0]] := by
  refine ⟨by decide, by decide, by decide⟩

/-- The keep-first-per-id phase is idempotent under any `seen` set. -/
theorem dedupById_idem {α : Type} [DecidableEq α] (rows : List (List α)) :
    ∀ seen : List (Option α),
      dedupById seen (dedupById seen rows) = dedupById seen rows := by
  induction rows with
  | nil => intro seen; rfl
  | cons r rs ih =>
    intro seen
    by_cases h : r[1]? ∈ seen
    · simp [dedupById, h, ih]
    · simp [dedupById, h, ih]

/-- The full step is the keep-first phase followed by the projection. -/
theorem dedupStep_eq_map_dropId {α : Type} [DecidableEq α] (rows : List (List α)) :
    ∀ seen : List (Option α),
      dedupStep seen rows = (dedupById seen rows).map dropIdField := by
  induction rows with
  | nil => intro seen; rfl
  | cons r rs ih =>
    intro seen
    by_cases h : r[1]? ∈ seen
    · simp [dedupStep, dedupById, h, ih]
    · simp [dedupStep, dedupById, h, ih]

/-- C3 (amended): the identifier-keyed keep-first phase of the
deduplication is idempotent (a second pass removes nothing and preserves
order), and the deduplication step as coded is that phase followed by
the id-column projection.  The composite step itself is NOT idempotent
on its own output: the projection removes the id column, so a second run
keys on a shifted column (the counterexample). -/
theorem dedup_keep_first_idempotent {α : Type} [DecidableEq α]
    (rows : List (List α)) :
    dedupById ([] : List (Option α)) (dedupById [] rows) = dedupById [] rows ∧
    ads_dedup rows = (dedupById [] rows).map dropIdField :=
  ⟨dedupById_idem rows [], dedupStep_eq_map_dropId rows []⟩

/-- C3 witness: the keep-first phase leaves an already-deduplicated
two-row list (ids 1 and 2) untouched, while the full step on the same
list removes the id column. -/
theorem dedup_keep_first_idempotent_witness :
    dedupById ([] : List (Option Int)) (dedupById [] [[0, 1, 7], [0, 2, 7]]) =
      dedupById [] [[0, 1, 7], [0, 2, 7]] ∧
    ads_dedup ([[0, 1, 7], [0, 2, 7]] : List (List Int)) =
      (dedupById [] [[0, 1, 7], [0, 2, 7]]).map dropIdField :=
  dedup_keep_first_idempotent [[0, 1, 7], [0, 2, 7]]
